import Mathlib

/-!
Verification of the video-downloader service (`src/video-downloader/server.js`)
against its natural-language specification.

The JavaScript source is shallowly embedded: the in-memory `downloadStatus`
map becomes an association list, the downloads directory becomes a list of
`FileInfo` records (name, mtime in milliseconds, size in bytes), and each
Express handler becomes a pure function from (store, directory, request) to a
response value.  The long-running Puppeteer pipeline
(`downloadVideoWithPuppeteer`) is embedded as a function from an environment
(which of its awaited browser steps succeed, and the directory contents at
materialization time) to the list of status records it writes to the store,
in write order.
-/

namespace VideoDownloader

/-- The status strings written by `downloadVideoWithPuppeteer` to the
`downloadStatus` map: `starting`, `loading`, `filling`, `processing`,
`downloading`, and the terminals `completed` and `error`. -/
inductive Status where
  | starting
  | loading
  | filling
  | processing
  | downloading
  | completed
  | error
deriving DecidableEq, Repr

/-- Position of a status in the pipeline's write order; both terminals share
the final rank. -/
def Status.rank : Status → Nat
  | .starting => 0
  | .loading => 1
  | .filling => 2
  | .processing => 3
  | .downloading => 4
  | .completed => 5
  | .error => 5

/-- `completed` and `error` are the terminal statuses. -/
def Status.isTerminal : Status → Bool
  | .completed => true
  | .error => true
  | _ => false

/-- One record stored in the `downloadStatus` map.  `filePath` and `fileSize`
are present only on the record written for a completed download
(server.js lines 277-283); every other `downloadStatus.set` call stores an
object without them. -/
structure StatusRec where
  status : Status
  progress : Nat
  message : String
  filePath : Option String := none
  fileSize : Option Nat := none
deriving DecidableEq, Repr

/-- A file in the downloads directory: its name, its modification time in
milliseconds since the epoch (`stats.mtime.getTime()`), and its size in
bytes (`stats.size`). -/
structure FileInfo where
  name : String
  mtime : Nat
  size : Nat
deriving DecidableEq, Repr

/-- Whether `pre` is a prefix of `l`, on character lists. -/
def isPre : List Char → List Char → Bool
  | [], _ => true
  | _ :: _, [] => false
  | a :: as, b :: bs => a = b && isPre as bs

/-- Whether `sub` occurs as a contiguous substring of `l`. -/
def hasSub (sub : List Char) : List Char → Bool
  | [] => isPre sub []
  | c :: t => isPre sub (c :: t) || hasSub sub t

/-- JavaScript `s.includes(sub)`: substring containment on strings. -/
def strContains (s sub : String) : Bool :=
  hasSub sub.data s.data

/-- JavaScript `s.endsWith(post)`: the reversed character list of `post`
prefixes the reversed character list of `s`. -/
def strEndsWith (s post : String) : Bool :=
  isPre post.data.reverse s.data.reverse

/-- The candidate filter of the Download Materializer (server.js lines
247-251):

`file.includes(downloadId) || (file.endsWith('.mp4') || file.endsWith('.mp3')) && mtime > Date.now() - 60000`

JavaScript gives `&&` higher precedence than `||`, so the expression parses
as `includes || ((endsWith mp4 || endsWith mp3) && recent)`. -/
def isCandidate (downloadId : String) (now : Nat) (f : FileInfo) : Bool :=
  strContains f.name downloadId ||
    ((strEndsWith f.name ".mp4" || strEndsWith f.name ".mp3") &&
      decide (now - 60000 < f.mtime))

/-- The spec's reading of the candidate filter, written as stated there:
accept a file iff (its name contains the job id) OR (its extension is in the
known media extension set AND its modification time is within the recency
window).  Stated separately from `isCandidate` so the two can be compared. -/
def specCandidate (downloadId : String) (now : Nat) (f : FileInfo) : Prop :=
  strContains f.name downloadId = true ∨
    ((strEndsWith f.name ".mp4" = true ∨ strEndsWith f.name ".mp3" = true) ∧
      now - 60000 < f.mtime)

/-- The comparator inside the `reduce` on server.js lines 256-260:
`current.mtime > latest.mtime ? current : latest`. -/
def laterOf (latest current : FileInfo) : FileInfo :=
  if latest.mtime < current.mtime then current else latest

/-- The `reduce` on server.js lines 256-260: fold `laterOf` over the
candidate list starting from the first element (JavaScript `reduce` with no
initial value). -/
def latestFile (files : List FileInfo) : Option FileInfo :=
  match files with
  | [] => none
  | f :: rest => some (rest.foldl laterOf f)

/-- The canonical artifact name for a job: `downloadId.format`
(server.js line 200 and 263). -/
def canonicalName (downloadId format : String) : String :=
  downloadId ++ "." ++ format

/-- Directory lookup by file name (`fs.existsSync` / `fs.statSync`). -/
def findFile (dir : List FileInfo) (name : String) : Option FileInfo :=
  dir.find? (fun f => f.name = name)

/-- The renaming half of the Download Materializer (server.js lines
246-271): filter the directory listing to candidates, pick the most
recently modified one with `latestFile`, and move it to the canonical
`downloadId.format` name with `overwrite: true` (the move is skipped when
the selected file already has that name, line 266).  Returns the directory
contents afterwards; when there is no candidate the directory is left as
is. -/
def materializeDir (dir : List FileInfo) (downloadId format : String) (now : Nat) :
    List FileInfo :=
  let videoFiles := dir.filter (isCandidate downloadId now)
  let finalName := canonicalName downloadId format
  match latestFile videoFiles with
  | none => dir
  | some latest =>
      if latest.name = finalName then dir
      else
        (dir.filter (fun f => f.name ≠ latest.name ∧ f.name ≠ finalName)) ++
          [{ latest with name := finalName }]

/-- The Download Materializer (server.js lines 246-299): rename the
selected candidate with `materializeDir`, then validate: the canonical file
must exist and be strictly larger than 1000 bytes.  Returns the terminal
status record the function writes (the thrown errors of lines 295 and 298
reach the catch block, which writes an `error` record with `Error: `
prefixed to the message), together with the directory contents
afterwards. -/
def materialize (dir : List FileInfo) (downloadId format : String) (now : Nat) :
    StatusRec × List FileInfo :=
  let dir2 := materializeDir dir downloadId format now
  match findFile dir2 (canonicalName downloadId format) with
  | some f =>
      if 1000 < f.size then
        ({ status := .completed, progress := 100,
           message := "Descarga completada exitosamente",
           filePath := some (canonicalName downloadId format),
           fileSize := some f.size }, dir2)
      else
        ({ status := .error, progress := 0,
           message := "Error: Archivo descargado está vacío o es muy pequeño" }, dir2)
  | none =>
      ({ status := .error, progress := 0,
         message := "Error: No se pudo completar la descarga" }, dir2)

/-- The environment one run of `downloadVideoWithPuppeteer` executes in:
whether each awaited browser step succeeds (any such await throwing lands
in the catch block), and the downloads directory contents plus clock value
at materialization time.  Each `*Msg` field is the message of the error the
corresponding external step throws when it fails. -/
structure Env where
  launchOk : Bool
  launchMsg : String
  gotoOk : Bool
  gotoMsg : String
  inputOk : Bool
  buttonFound : Bool
  clickOk : Bool
  clickMsg : String
  dir : List FileInfo
  now : Nat
deriving DecidableEq, Repr

/-- An `error` record as written by the catch block (server.js lines
303-307): progress reset to 0 and the message prefixed with `Error: `. -/
def errRec (msg : String) : StatusRec :=
  { status := .error, progress := 0, message := "Error: " ++ msg }

/-- One run of `downloadVideoWithPuppeteer` (server.js lines 52-319),
as the sequence of records it writes to `downloadStatus` for its job id, in
write order.  The write points are lines 57, 78, 87, 104, 197, 277 or 303;
any throw between them jumps to the catch block, which appends the single
`error` record and is the last write of the run. -/
def runPipeline (env : Env) (videoUrl format downloadId : String) :
    List StatusRec :=
  let t0 := [({ status := .starting, progress := 0,
                message := "Iniciando navegador..." } : StatusRec)]
  if ¬ env.launchOk then t0 ++ [errRec env.launchMsg] else
  let t1 := t0 ++ [{ status := .loading, progress := 10,
                     message := "Cargando kick-video.download..." }]
  if ¬ env.gotoOk then t1 ++ [errRec env.gotoMsg] else
  let t2 := t1 ++ [{ status := .filling, progress := 25,
                     message := "Ingresando URL del video..." }]
  if ¬ env.inputOk then t2 ++ [errRec "No se encontró el campo de URL"] else
  let t3 := t2 ++ [{ status := .processing, progress := 50,
                     message := "Procesando video..." }]
  if ¬ env.buttonFound then
    t3 ++ [errRec "No se encontró el botón de descarga. Ver debug screenshot."]
  else
  let t4 := t3 ++ [{ status := .downloading, progress := 75,
                     message := "Iniciando descarga..." }]
  if ¬ env.clickOk then t4 ++ [errRec env.clickMsg] else
  t4 ++ [(materialize env.dir downloadId format env.now).1]

/-- The Filesystem Janitor (`cleanupOldFiles`, server.js lines 28-46):
delete every file whose `mtime` is strictly before `now` minus one hour,
keep every other file.  It reads only the directory listing — the
`downloadStatus` map is not consulted. -/
def cleanupOldFiles (now : Nat) (dir : List FileInfo) : List FileInfo :=
  dir.filter (fun f => ¬ (f.mtime < now - 3600000))

/-- The `downloadStatus` map, as an association list from download id to the
most recently stored record. -/
def Store := List (String × StatusRec)

/-- `downloadStatus.get(downloadId)`. -/
def Store.get (s : Store) (downloadId : String) : Option StatusRec :=
  List.lookup downloadId s

/-- The response of `GET /file/:downloadId` (server.js lines 390-432):
either a JSON body with an HTTP code, or a streamed file with
`Content-Disposition`, `Content-Length` and `Content-Type` headers. -/
inductive FileResponse where
  | notFound (code : Nat) (error : String) (downloadId : String)
  | inProgress (code : Nat) (error : String) (status : Status)
      (progress : Nat) (message : String)
  | fileStream (code : Nat) (disposition : String) (contentLength : Nat)
      (contentType : String)
deriving DecidableEq, Repr

/-- The HTTP status code of a `/file` response (`res.json` defaults to 200). -/
def FileResponse.httpCode : FileResponse → Nat
  | .notFound c _ _ => c
  | .inProgress c _ _ _ _ => c
  | .fileStream c _ _ _ => c

/-- The `Content-Length` header of a `/file` response, when one is sent. -/
def FileResponse.contentLength : FileResponse → Option Nat
  | .fileStream _ _ n _ => some n
  | _ => none

/-- The `GET /file/:downloadId` handler (server.js lines 390-432): 404 when
the id is unknown; 202 with the stored status, progress and message when the
stored status is not `completed`; otherwise stream the file at the recorded
`filePath` as an attachment with `Content-Length` taken from a fresh
`fs.statSync(filePath).size`, or 404 when that file no longer exists. -/
def fileEndpoint (store : Store) (dir : List FileInfo) (downloadId : String) :
    FileResponse :=
  match store.get downloadId with
  | none => .notFound 404 "ID de descarga no encontrado" downloadId
  | some st =>
      if st.status ≠ .completed then
        .inProgress 202 "Descarga aún en progreso" st.status st.progress st.message
      else
        match st.filePath.bind (fun p => findFile dir p) with
        | none => .notFound 404 "Archivo no encontrado" downloadId
        | some f =>
            .fileStream 200 ("attachment; filename=\"" ++ f.name ++ "\"")
              f.size "application/octet-stream"

/-- The body of a `POST /download` request: `videoUrl` (required),
`format` (optional, defaulting to `mp4`), `title` (optional, unused). -/
structure DownloadRequest where
  videoUrl : Option String
  format : Option String
  title : Option String
deriving DecidableEq, Repr

/-- The response of `POST /download` (server.js lines 334-368). -/
inductive PostResponse where
  | badRequest (code : Nat) (error : String)
  | accepted (code : Nat) (success : Bool) (downloadId : String)
      (message : String) (statusUrl : String) (downloadUrl : String)
deriving DecidableEq, Repr

/-- The HTTP status code of a `/download` response. -/
def PostResponse.httpCode : PostResponse → Nat
  | .badRequest c _ => c
  | .accepted c _ _ _ _ _ => c

/-- The closed set of supported formats (server.js line 345). -/
def supportedFormats : List String := ["mp4", "mp3"]

/-- The `POST /download` handler (server.js lines 334-368).  It takes the
per-job pipeline as a parameter (a function from videoUrl, format and
downloadId to the status records that background run will write), because
line 359 calls `downloadVideoWithPuppeteer(videoUrl, format, downloadId)`
without `await`: the handler returns its response from the request fields
and the fresh id alone.  Result: the HTTP response, the store as left by the
handler itself, and the writes of the spawned background task (empty when no
task was started). -/
def postDownload (pipeline : String → String → String → List StatusRec)
    (freshId : String) (store : Store) (req : DownloadRequest) :
    PostResponse × Store × List StatusRec :=
  match req.videoUrl with
  | none => (.badRequest 400 "URL del video es requerida", store, [])
  | some url =>
      let fmt := req.format.getD "mp4"
      if ¬ (supportedFormats.contains fmt) then
        (.badRequest 400 "Formato inválido. Use mp4 o mp3", store, [])
      else
        (.accepted 200 true freshId "Descarga iniciada"
            ("/status/" ++ freshId) ("/file/" ++ freshId),
         store,
         pipeline url fmt freshId)

/-! ## Supporting lemmas -/

/-- The second component of `materialize` is the renamed directory. -/
lemma materialize_snd (dir : List FileInfo) (downloadId format : String) (now : Nat) :
    (materialize dir downloadId format now).2 = materializeDir dir downloadId format now := by
  rcases h : findFile (materializeDir dir downloadId format now)
      (canonicalName downloadId format) with _ | f
  · simp [materialize, h]
  · by_cases hs : 1000 < f.size <;> simp [materialize, h, hs]

/-- The status record produced by `materialize` is terminal: it ranks last
in the pipeline ordering. -/
lemma materialize_rank (dir : List FileInfo) (downloadId format : String) (now : Nat) :
    ((materialize dir downloadId format now).1).status.rank = 5 := by
  rcases h : findFile (materializeDir dir downloadId format now)
      (canonicalName downloadId format) with _ | f
  · simp [materialize, h, Status.rank]
  · by_cases hs : 1000 < f.size <;> simp [materialize, h, hs, Status.rank]

/-- The status record produced by `materialize` is `completed` or `error`. -/
lemma materialize_status_terminal (dir : List FileInfo)
    (downloadId format : String) (now : Nat) :
    ((materialize dir downloadId format now).1).status = .completed ∨
      ((materialize dir downloadId format now).1).status = .error := by
  rcases h : findFile (materializeDir dir downloadId format now)
      (canonicalName downloadId format) with _ | f
  · right
    simp [materialize, h]
  · by_cases hs : 1000 < f.size
    · left
      simp [materialize, h, hs]
    · right
      simp [materialize, h, hs]

/-- The fold of `laterOf` yields its seed or a list element. -/
lemma foldl_laterOf_mem (l : List FileInfo) (a : FileInfo) :
    l.foldl laterOf a = a ∨ l.foldl laterOf a ∈ l := by
  induction l generalizing a with
  | nil => exact Or.inl rfl
  | cons b t ih =>
      rw [List.foldl_cons]
      rcases ih (laterOf a b) with h | h
      · rw [h]
        unfold laterOf
        split
        · exact Or.inr (List.mem_cons_self b t)
        · exact Or.inl rfl
      · exact Or.inr (List.mem_cons_of_mem b h)

/-- The fold of `laterOf` dominates its seed and every list element in
modification time. -/
lemma foldl_laterOf_ge (l : List FileInfo) (a : FileInfo) :
    a.mtime ≤ (l.foldl laterOf a).mtime ∧
      ∀ f ∈ l, f.mtime ≤ (l.foldl laterOf a).mtime := by
  induction l generalizing a with
  | nil => exact ⟨le_refl _, by simp⟩
  | cons b t ih =>
      rw [List.foldl_cons]
      obtain ⟨h1, h2⟩ := ih (laterOf a b)
      have ha : a.mtime ≤ (laterOf a b).mtime := by
        unfold laterOf
        split
        · omega
        · exact le_refl _
      have hb : b.mtime ≤ (laterOf a b).mtime := by
        unfold laterOf
        split
        · exact le_refl _
        · omega
      refine ⟨le_trans ha h1, ?_⟩
      intro f hf
      rcases List.mem_cons.mp hf with rfl | hf
      · exact le_trans hb h1
      · exact h2 f hf

/-- On a non-empty list, `latestFile` returns a member whose modification
time dominates every member's. -/
lemma latestFile_spec (l : List FileInfo) (hne : l ≠ []) :
    ∃ sel, latestFile l = some sel ∧ sel ∈ l ∧ ∀ f ∈ l, f.mtime ≤ sel.mtime := by
  cases l with
  | nil => exact absurd rfl hne
  | cons a t =>
      refine ⟨t.foldl laterOf a, rfl, ?_, ?_⟩
      · rcases foldl_laterOf_mem t a with h | h
        · rw [h]
          exact List.mem_cons_self a t
        · exact List.mem_cons_of_mem a h
      · intro f hf
        obtain ⟨h1, h2⟩ := foldl_laterOf_ge t a
        rcases List.mem_cons.mp hf with rfl | hf
        · exact h1
        · exact h2 f hf

/-- `findFile` skips a leading block in which no file bears the name. -/
lemma findFile_append_right (l₁ l₂ : List FileInfo) (nm : String)
    (h : ∀ x ∈ l₁, x.name ≠ nm) :
    findFile (l₁ ++ l₂) nm = findFile l₂ nm := by
  induction l₁ with
  | nil => rfl
  | cons a t ih =>
      have ha : a.name ≠ nm := h a (List.mem_cons_self a t)
      have ht : ∀ x ∈ t, x.name ≠ nm := fun x hx => h x (List.mem_cons_of_mem a hx)
      simp only [findFile, List.cons_append] at ih ⊢
      rw [List.find?_cons_of_neg, ih ht]
      simp [ha]

/-- In a directory with pairwise distinct names, a file is determined by
its name. -/
lemma name_inj (files : List FileInfo) (h : (files.map FileInfo.name).Nodup)
    (f g : FileInfo) (hf : f ∈ files) (hg : g ∈ files) (he : f.name = g.name) :
    f = g :=
  List.inj_on_of_nodup_map h hf hg he

/-! ## Claims -/

/-- C5: a file passes the Materializer's candidate filter iff its name
contains the job id OR (its extension is `.mp4` or `.mp3` AND its
modification time is within the 60-second recency window): JavaScript's
`&&`-over-`||` precedence makes the source expression the OR of the two
matching strategies, with the extension and recency tests conjoined. -/
theorem candidate_filter_or_of_strategies (downloadId : String) (now : Nat)
    (f : FileInfo) :
    isCandidate downloadId now f = true ↔ specCandidate downloadId now f := by
  simp [isCandidate, specCandidate, Bool.or_eq_true, Bool.and_eq_true,
    decide_eq_true_iff]

/-- C9: a sweep of `cleanupOldFiles` keeps exactly the files whose
modification time is within the one-hour retention window: every file
strictly older than `now` minus one hour is deleted and every other file is
kept unchanged.  The function takes no job store: no job's phase is
consulted. -/
theorem janitor_retention_window (now : Nat) (dir : List FileInfo) (f : FileInfo) :
    f ∈ cleanupOldFiles now dir ↔ f ∈ dir ∧ ¬ (f.mtime < now - 3600000) := by
  simp [cleanupOldFiles]

/-- A store holding one job that failed with a download timeout. -/
def failedStore : Store :=
  [("j3", { status := .error, progress := 0,
            message := "Error: Timeout esperando descarga" })]

/-- C3 counterexample: for a job stored with the terminal failure status
`error`, `GET /file/:id` answers with HTTP 202 (an error/progress body),
not 404 as the claim states. -/
theorem file_endpoint_failed_job_not_404 :
    (fileEndpoint failedStore [] "j3").httpCode = 202 ∧
    (fileEndpoint failedStore [] "j3").httpCode ≠ 404 := by
  constructor
  · rfl
  · decide

/-- C3 amended: for every job id whose stored status is the terminal
failure `error`, `GET /file/:id` returns HTTP 202 with the stored
status/progress/message body (the handler only distinguishes `completed`
from everything else), not 404. -/
theorem file_endpoint_failed_job_returns_202 (store : Store) (dir : List FileInfo)
    (downloadId : String) (st : StatusRec)
    (hget : store.get downloadId = some st) (hstatus : st.status = .error) :
    fileEndpoint store dir downloadId =
      .inProgress 202 "Descarga aún en progreso" .error st.progress st.message := by
  unfold fileEndpoint
  rw [hget]
  simp [hstatus]

/-- The record of a job that failed because no download button was found. -/
def failedRecW : StatusRec :=
  { status := .error, progress := 0,
    message := "Error: No se encontró el botón de descarga. Ver debug screenshot." }

/-- Witness for the amended C3 at a concrete store. -/
theorem file_endpoint_failed_job_returns_202_witness :
    fileEndpoint [("w3", failedRecW)] [] "w3" =
      .inProgress 202 "Descarga aún en progreso" .error
        failedRecW.progress failedRecW.message :=
  file_endpoint_failed_job_returns_202 [("w3", failedRecW)] [] "w3" failedRecW rfl rfl

/-- C10: for every job id stored as `completed` whose recorded artifact
file is no longer in the directory, `GET /file/:id` returns 404 with an
error body instead of streaming. -/
theorem file_endpoint_completed_missing_artifact_404 (store : Store)
    (dir : List FileInfo) (downloadId : String) (st : StatusRec) (p : String)
    (hget : store.get downloadId = some st) (hstatus : st.status = .completed)
    (hpath : st.filePath = some p) (hmissing : findFile dir p = none) :
    fileEndpoint store dir downloadId =
      .notFound 404 "Archivo no encontrado" downloadId := by
  unfold fileEndpoint
  rw [hget]
  simp [hstatus, hpath, hmissing]

/-- A completed job record whose recorded `fileSize` is 5000 bytes. -/
def staleSizeRec : StatusRec :=
  { status := .completed, progress := 100,
    message := "Descarga completada exitosamente",
    filePath := some "j7.mp4", fileSize := some 5000 }

/-- A directory where `j7.mp4` now holds 2000 bytes. -/
def staleSizeDir : List FileInfo := [{ name := "j7.mp4", mtime := 0, size := 2000 }]

/-- C7 counterexample: the handler takes `Content-Length` from a fresh
`fs.statSync(filePath).size`, not from the recorded `fileSize`; when the
file on disk has changed since completion the header differs from the
recorded byte size. -/
theorem file_endpoint_content_length_not_recorded_size :
    Store.get [("j7", staleSizeRec)] "j7" = some staleSizeRec ∧
    staleSizeRec.fileSize = some 5000 ∧
    (fileEndpoint [("j7", staleSizeRec)] staleSizeDir "j7").contentLength = some 2000 ∧
    (fileEndpoint [("j7", staleSizeRec)] staleSizeDir "j7").contentLength ≠ some 5000 := by
  refine ⟨rfl, rfl, rfl, ?_⟩
  decide

/-- C7 amended: for every known job id, `GET /file/:id` returns 202 with
the stored status/progress/message while the status is not `completed`;
once `completed`, provided the recorded artifact file still exists on disk,
it streams it as an attachment with `Content-Length` equal to the file's
current on-disk size (which equals the recorded `fileSize` whenever the
file is unchanged since completion). -/
theorem file_endpoint_progress_then_stream (store : Store) (dir : List FileInfo)
    (downloadId : String) (st : StatusRec)
    (hget : store.get downloadId = some st) :
    (st.status ≠ .completed →
      fileEndpoint store dir downloadId =
        .inProgress 202 "Descarga aún en progreso" st.status st.progress st.message) ∧
    (∀ p f, st.status = .completed → st.filePath = some p → findFile dir p = some f →
      fileEndpoint store dir downloadId =
        .fileStream 200 ("attachment; filename=\"" ++ f.name ++ "\"")
          f.size "application/octet-stream") := by
  constructor
  · intro hne
    unfold fileEndpoint
    rw [hget]
    simp [hne]
  · intro p f hc hp hf
    unfold fileEndpoint
    rw [hget]
    simp [hc, hp, hf]

/-- The record of a completed job whose artifact `w7.mp4` is 2048 bytes. -/
def completedRecW7 : StatusRec :=
  { status := .completed, progress := 100,
    message := "Descarga completada exitosamente",
    filePath := some "w7.mp4", fileSize := some 2048 }

/-- Witness for the amended C7: a completed job streamed from disk. -/
theorem file_endpoint_progress_then_stream_witness :
    fileEndpoint [("w7", completedRecW7)] [{ name := "w7.mp4", mtime := 0, size := 2048 }] "w7" =
      .fileStream 200 "attachment; filename=\"w7.mp4\"" 2048 "application/octet-stream" :=
  (file_endpoint_progress_then_stream [("w7", completedRecW7)]
      [{ name := "w7.mp4", mtime := 0, size := 2048 }] "w7" completedRecW7 rfl).2
    "w7.mp4" { name := "w7.mp4", mtime := 0, size := 2048 } rfl rfl rfl

/-- C4 counterexample: a request whose format `mp4` is in the supported set
but whose `videoUrl` is missing is rejected with 400 and starts no job, so
a supported format alone does not imply acceptance. -/
theorem post_download_supported_format_not_always_accepted :
    supportedFormats.contains "mp4" = true ∧
    (postDownload (fun _ _ _ => []) "id4" []
        { videoUrl := none, format := some "mp4", title := none }).1 =
      .badRequest 400 "URL del video es requerida" ∧
    (postDownload (fun _ _ _ => []) "id4" []
        { videoUrl := none, format := some "mp4", title := none }).1.httpCode = 400 ∧
    (postDownload (fun _ _ _ => []) "id4" []
        { videoUrl := none, format := some "mp4", title := none }).2.2 = [] := by
  exact ⟨rfl, rfl, rfl, rfl⟩

/-- C4 amended: for every `POST /download` request, if `videoUrl` is
present and the (defaulted) format is in the supported set, the request is
accepted — a fresh job id is issued in the response and the pipeline task
is started with the request's url, format and that id; if the format is
outside the supported set the response is HTTP 400 and no job is started,
so the job store gains no new entry. -/
theorem post_download_acceptance (pipeline : String → String → String → List StatusRec)
    (freshId : String) (store : Store) (req : DownloadRequest) :
    (∀ url, req.videoUrl = some url →
      supportedFormats.contains (req.format.getD "mp4") = true →
      postDownload pipeline freshId store req =
        (.accepted 200 true freshId "Descarga iniciada"
            ("/status/" ++ freshId) ("/file/" ++ freshId),
         store, pipeline url (req.format.getD "mp4") freshId)) ∧
    (supportedFormats.contains (req.format.getD "mp4") = false →
      (postDownload pipeline freshId store req).1.httpCode = 400 ∧
      (postDownload pipeline freshId store req).2.1 = store ∧
      (postDownload pipeline freshId store req).2.2 = []) := by
  constructor
  · intro url hurl hfmt
    have hm : req.format.getD "mp4" ∈ supportedFormats := by simpa using hfmt
    unfold postDownload
    rw [hurl]
    simp [hm]
  · intro hfmt
    have hm : req.format.getD "mp4" ∉ supportedFormats := by simpa using hfmt
    unfold postDownload
    rcases hu : req.videoUrl with _ | url
    · exact ⟨rfl, rfl, rfl⟩
    · simp [hm, PostResponse.httpCode]

/-- Witness for the amended C4: a well-formed mp3 request is accepted. -/
theorem post_download_acceptance_witness :
    postDownload (fun _ _ _ => []) "w4" []
        { videoUrl := some "https://kick.com/v", format := some "mp3", title := none } =
      (.accepted 200 true "w4" "Descarga iniciada" "/status/w4" "/file/w4", [], []) :=
  (post_download_acceptance (fun _ _ _ => []) "w4" []
      { videoUrl := some "https://kick.com/v", format := some "mp3", title := none }).1
    "https://kick.com/v" rfl rfl

/-- C8: the response of an accepted `POST /download` does not depend on the
pipeline's writes or result — the task is fire-and-forget: the same
`{success, downloadId, statusUrl, downloadUrl}` body is returned whatever
the spawned run will do, and the run is started with the request's url,
format and the fresh id. -/
theorem post_download_fire_and_forget
    (p q : String → String → String → List StatusRec)
    (freshId : String) (store : Store) (req : DownloadRequest) (url : String)
    (hurl : req.videoUrl = some url)
    (hfmt : supportedFormats.contains (req.format.getD "mp4") = true) :
    (postDownload p freshId store req).1 = (postDownload q freshId store req).1 ∧
    (postDownload p freshId store req).1 =
      .accepted 200 true freshId "Descarga iniciada"
        ("/status/" ++ freshId) ("/file/" ++ freshId) ∧
    (postDownload p freshId store req).2.2 = p url (req.format.getD "mp4") freshId := by
  have hm : req.format.getD "mp4" ∈ supportedFormats := by simpa using hfmt
  unfold postDownload
  rw [hurl]
  simp [hm]

/-- The first record every pipeline run writes. -/
def startingRec : StatusRec :=
  { status := .starting, progress := 0, message := "Iniciando navegador..." }

/-- Witness for C8 at two pipelines with different outcomes. -/
theorem post_download_fire_and_forget_witness :
    (postDownload (fun _ _ _ => [startingRec]) "w8" []
        { videoUrl := some "https://kick.com/w", format := none, title := none }).1 =
      (postDownload (fun _ _ _ => []) "w8" []
        { videoUrl := some "https://kick.com/w", format := none, title := none }).1 :=
  (post_download_fire_and_forget
      (fun _ _ _ => [startingRec]) (fun _ _ _ => []) "w8" []
      { videoUrl := some "https://kick.com/w", format := none, title := none }
      "https://kick.com/w" rfl rfl).1

/-- The record of a completed job whose artifact was `w10.mp4`. -/
def completedRecW10 : StatusRec :=
  { status := .completed, progress := 100,
    message := "Descarga completada exitosamente",
    filePath := some "w10.mp4", fileSize := some 4096 }

/-- Witness for C10: a completed job whose artifact was already reaped. -/
theorem file_endpoint_completed_missing_artifact_404_witness :
    fileEndpoint [("w10", completedRecW10)] [] "w10" =
      .notFound 404 "Archivo no encontrado" "w10" :=
  file_endpoint_completed_missing_artifact_404
    [("w10", completedRecW10)] [] "w10" completedRecW10 "w10.mp4" rfl rfl rfl rfl

/-- C1: in any environment, the statuses one pipeline run writes to the
job store form a non-decreasing walk through the phase ordering
(`starting`, `loading`, `filling`, `processing`, `downloading`, then a
terminal), and no terminal status (`completed` or `error`) appears anywhere
but as the run's very last write — so once a terminal status is written, no
further status update for that job id occurs (each id is a fresh UUID, run
exactly once). -/
theorem pipeline_status_monotone_terminal_last (env : Env)
    (videoUrl format downloadId : String) :
    List.Chain' (fun a b => a.status.rank ≤ b.status.rank)
        (runPipeline env videoUrl format downloadId) ∧
    ∀ e ∈ (runPipeline env videoUrl format downloadId).dropLast,
      e.status.isTerminal = false := by
  obtain ⟨l, lm, g, gm, i, b, c, cm, dir, now⟩ := env
  have hterm := materialize_status_terminal dir downloadId format now
  cases l <;> cases g <;> cases i <;> cases b <;> cases c <;>
    rcases hterm with hs | hs <;>
    simp [runPipeline, errRec, Status.rank, Status.isTerminal,
      List.chain'_cons, List.dropLast, hs]

/-- The environment of a run in which every browser step succeeds and the
downloads directory is empty. -/
def allOkEnv : Env :=
  { launchOk := true, launchMsg := "", gotoOk := true, gotoMsg := "",
    inputOk := true, buttonFound := true, clickOk := true, clickMsg := "",
    dir := [], now := 0 }

/-- Witness for C1: in the all-success environment the initial `starting`
write sits strictly before the run's last write and is not terminal. -/
theorem pipeline_status_monotone_terminal_last_witness :
    startingRec ∈ (runPipeline allOkEnv "u" "mp4" "w1").dropLast ∧
    startingRec.status.isTerminal = false :=
  ⟨by decide,
   (pipeline_status_monotone_terminal_last allOkEnv "u" "mp4" "w1").2
     startingRec (by decide)⟩

/-- C2: with a non-empty candidate set whose modification times are
pairwise distinct (directory names being unique), the Materializer selects
the strictly most recently modified candidate and the directory afterwards
holds it under the canonical `downloadId.format` name — and holds no other
file under that name, any previous occupant having been overwritten. -/
theorem materializer_selects_latest_and_canonicalizes
    (files : List FileInfo) (downloadId format : String) (now : Nat)
    (hne : files.filter (isCandidate downloadId now) ≠ [])
    (hmt : (files.filter (isCandidate downloadId now)).Pairwise
      (fun f g => f.mtime ≠ g.mtime))
    (hnames : (files.map FileInfo.name).Nodup) :
    ∃ sel, latestFile (files.filter (isCandidate downloadId now)) = some sel ∧
      sel ∈ files.filter (isCandidate downloadId now) ∧
      (∀ f ∈ files.filter (isCandidate downloadId now),
        f ≠ sel → f.mtime < sel.mtime) ∧
      findFile (materialize files downloadId format now).2
          (canonicalName downloadId format) =
        some { sel with name := canonicalName downloadId format } ∧
      ∀ g ∈ (materialize files downloadId format now).2,
        g.name = canonicalName downloadId format →
        g = { sel with name := canonicalName downloadId format } := by
  obtain ⟨sel, hsel, hmem, hmax⟩ :=
    latestFile_spec (files.filter (isCandidate downloadId now)) hne
  have hself : sel ∈ files := (List.mem_filter.mp hmem).1
  have hstrict : ∀ f ∈ files.filter (isCandidate downloadId now),
      f ≠ sel → f.mtime < sel.mtime := by
    intro f hf hfs
    have hsymm : Symmetric (fun f g : FileInfo => f.mtime ≠ g.mtime) :=
      fun _ _ h => Ne.symm h
    have hne' : f.mtime ≠ sel.mtime := hmt.forall hsymm hf hmem hfs
    exact lt_of_le_of_ne (hmax f hf) hne'
  have hdir : (materialize files downloadId format now).2 =
      materializeDir files downloadId format now :=
    materialize_snd files downloadId format now
  have hmd : materializeDir files downloadId format now =
      if sel.name = canonicalName downloadId format then files
      else
        (files.filter (fun f =>
          f.name ≠ sel.name ∧ f.name ≠ canonicalName downloadId format)) ++
          [{ sel with name := canonicalName downloadId format }] := by
    simp only [materializeDir]
    rw [hsel]
  by_cases hn : sel.name = canonicalName downloadId format
  · have hmd' : (materialize files downloadId format now).2 = files := by
      rw [hdir, hmd, if_pos hn]
    have hrw : ({ sel with name := canonicalName downloadId format } : FileInfo) = sel := by
      rw [← hn]
    refine ⟨sel, hsel, hmem, hstrict, ?_, ?_⟩
    · rw [hmd', hrw]
      rcases hfind : findFile files (canonicalName downloadId format) with _ | g
      · exfalso
        have hmiss := List.find?_eq_none.mp hfind sel hself
        simp [hn] at hmiss
      · have hgmem : g ∈ files := List.mem_of_find?_eq_some hfind
        have hgname : g.name = canonicalName downloadId format := by
          have hp := List.find?_some hfind
          simpa using hp
        rw [← name_inj files hnames g sel hgmem hself (hgname.trans hn.symm)]
    · intro g hg hgname
      rw [hmd'] at hg
      rw [hrw]
      exact name_inj files hnames g sel hg hself (hgname.trans hn.symm)
  · have hmd' : (materialize files downloadId format now).2 =
        (files.filter (fun f =>
          f.name ≠ sel.name ∧ f.name ≠ canonicalName downloadId format)) ++
          [{ sel with name := canonicalName downloadId format }] := by
      rw [hdir, hmd, if_neg hn]
    refine ⟨sel, hsel, hmem, hstrict, ?_, ?_⟩
    · rw [hmd', findFile_append_right]
      · simp [findFile]
      · intro x hx
        have hx2 := (List.mem_filter.mp hx).2
        simp only [decide_eq_true_iff] at hx2
        exact hx2.2
    · intro g hg hgname
      rw [hmd'] at hg
      rcases List.mem_append.mp hg with hg | hg
      · exfalso
        have hx2 := (List.mem_filter.mp hg).2
        simp only [decide_eq_true_iff] at hx2
        exact hx2.2 hgname
      · simpa using hg

/-- Witness for C2: among two candidates with distinct mtimes the fresher
one (`clip-w2.mp4`, mtime 20) is selected and renamed to `w2.mp4`. -/
theorem materializer_selects_latest_and_canonicalizes_witness :
    ∃ sel,
      latestFile ([{ name := "a.mp4", mtime := 10, size := 5000 },
          { name := "clip-w2.mp4", mtime := 20, size := 6000 }].filter
            (isCandidate "w2" 0)) = some sel ∧
      sel ∈ [{ name := "a.mp4", mtime := 10, size := 5000 },
          { name := "clip-w2.mp4", mtime := 20, size := 6000 }].filter
            (isCandidate "w2" 0) ∧
      (∀ f ∈ [{ name := "a.mp4", mtime := 10, size := 5000 },
          { name := "clip-w2.mp4", mtime := 20, size := 6000 }].filter
            (isCandidate "w2" 0), f ≠ sel → f.mtime < sel.mtime) ∧
      findFile (materialize [{ name := "a.mp4", mtime := 10, size := 5000 },
          { name := "clip-w2.mp4", mtime := 20, size := 6000 }] "w2" "mp4" 0).2
          (canonicalName "w2" "mp4") =
        some { sel with name := canonicalName "w2" "mp4" } ∧
      ∀ g ∈ (materialize [{ name := "a.mp4", mtime := 10, size := 5000 },
          { name := "clip-w2.mp4", mtime := 20, size := 6000 }] "w2" "mp4" 0).2,
        g.name = canonicalName "w2" "mp4" →
        g = { sel with name := canonicalName "w2" "mp4" } :=
  materializer_selects_latest_and_canonicalizes
    [{ name := "a.mp4", mtime := 10, size := 5000 },
     { name := "clip-w2.mp4", mtime := 20, size := 6000 }] "w2" "mp4" 0
    (by decide) (by decide) (by decide)

/-- C6: the Materializer records `completed` (with `filePath` and
`fileSize`) exactly when the canonical artifact exists and strictly exceeds
the 1000-byte threshold; whenever the canonical artifact exists but is at
or below the threshold — even when it was the most recently modified
candidate — the run ends in the terminal `error` status with the
too-small diagnostic instead of `completed`. -/
theorem materializer_size_threshold (files : List FileInfo)
    (downloadId format : String) (now : Nat) :
    (∀ f, findFile (materialize files downloadId format now).2
        (canonicalName downloadId format) = some f → f.size ≤ 1000 →
      (materialize files downloadId format now).1 =
        { status := .error, progress := 0,
          message := "Error: Archivo descargado está vacío o es muy pequeño" }) ∧
    ((materialize files downloadId format now).1.status = .completed ↔
      ∃ f, findFile (materialize files downloadId format now).2
          (canonicalName downloadId format) = some f ∧ 1000 < f.size) ∧
    ((materialize files downloadId format now).1.status = .completed →
      (materialize files downloadId format now).1.filePath =
        some (canonicalName downloadId format) ∧
      ∃ f, findFile (materialize files downloadId format now).2
          (canonicalName downloadId format) = some f ∧
        (materialize files downloadId format now).1.fileSize = some f.size) := by
  rcases h : findFile (materializeDir files downloadId format now)
      (canonicalName downloadId format) with _ | f
  · refine ⟨?_, ?_, ?_⟩ <;>
      simp [materialize, materialize_snd, h, Status.rank]
  · by_cases hs : 1000 < f.size
    · refine ⟨?_, ?_, ?_⟩
      · intro g hg hle
        rw [materialize_snd, h] at hg
        obtain rfl : f = g := by injection hg
        omega
      · simp only [materialize, materialize_snd, h]
        simp [hs]
        exact ⟨f, h, hs⟩
      · intro _
        simp only [materialize, materialize_snd, h]
        simp [hs]
        exact ⟨f, h, rfl⟩
    · refine ⟨?_, ?_, ?_⟩
      · intro g hg hle
        simp [materialize, h, hs]
      · simp only [materialize, materialize_snd, h]
        simp [hs]
        intro g hg
        rw [h] at hg
        obtain rfl : f = g := by injection hg
        omega
      · intro hc
        exfalso
        simp [materialize, h, hs] at hc

/-- Witness for C6: the single candidate `w6.mp4` is the most recent file
but holds only 500 bytes, so the job is failed, not completed. -/
theorem materializer_size_threshold_witness :
    (materialize [{ name := "w6.mp4", mtime := 5, size := 500 }] "w6" "mp4" 6000).1 =
      { status := .error, progress := 0,
        message := "Error: Archivo descargado está vacío o es muy pequeño" } :=
  (materializer_size_threshold [{ name := "w6.mp4", mtime := 5, size := 500 }]
      "w6" "mp4" 6000).1
    { name := "w6.mp4", mtime := 5, size := 500 } (by decide) (by decide)

end VideoDownloader
